import Mathlib

/-!
Shallow embedding of the anchor-resolution and offline-synchronization core
of the obsidian-agent-comments plugin.

Documents and document-derived strings (anchor text, suggestion text) are
modelled as `List Char`; identifiers, timestamps and paths as `String`.
JavaScript string primitives (`slice`, `indexOf`, `includes`) are embedded
as functions with JS clamping semantics.
-/

/-- JS index clamping for `String.prototype.slice`: a negative index counts
from the end (clamped at 0), a non-negative one is clamped at the length. -/
def jsClampIndex (len : Nat) (i : Int) : Nat :=
  if i < 0 then ((len : Int) + i).toNat else min i.toNat len

/-- Embeds JavaScript `str.slice(s, e)` on a document given as `List Char`. -/
def jsSlice (l : List Char) (s e : Int) : List Char :=
  (l.take (jsClampIndex l.length e)).drop (jsClampIndex l.length s)

/-- Embeds JavaScript `str.slice(s)` (one-argument slice, to end of string). -/
def jsSliceFrom (l : List Char) (s : Int) : List Char :=
  l.drop (jsClampIndex l.length s)

/-- `occursAt needle haystack i` holds when `needle` occurs in `haystack`
starting at position `i` (the characters `i .. i + needle.length` match). -/
def occursAt (needle haystack : List Char) (i : Nat) : Bool :=
  decide ((haystack.drop i).take needle.length = needle)

/-- Embeds JavaScript `haystack.indexOf(needle)`: the first occurrence start,
`none` when absent (`-1` in JS).  For the empty needle this is position 0,
as in JS. -/
def strIndexOf (needle haystack : List Char) : Option Nat :=
  (List.range (haystack.length + 1)).find? (occursAt needle haystack)

/-- Embeds JavaScript `haystack.includes(needle)`. -/
def jsIncludes (needle haystack : List Char) : Bool :=
  (strIndexOf needle haystack).isSome

-- --- Data model (src/models/thread.ts) ---

inductive ThreadStatus
  | open
  | resolved
deriving DecidableEq, Repr

inductive SuggestionStatus
  | pending
  | accepted
  | rejected
deriving DecidableEq, Repr

inductive AuthorType
  | human
  | agent
deriving DecidableEq, Repr

/-- `TextAnchor` from src/models/thread.ts.  `sectionHeading` is optional
(`undefined` is `none`); JS treats the empty string as falsy, which the
resolver's layer-3 guard relies on. -/
structure TextAnchor where
  anchorText : List Char
  startOffset : Int
  endOffset : Int
  sectionHeading : Option (List Char) := none
deriving DecidableEq, Repr

/-- `Suggestion` from src/models/thread.ts. -/
structure Suggestion where
  originalText : List Char
  replacementText : List Char
  status : SuggestionStatus
deriving DecidableEq, Repr

/-- `ThreadMessage` from src/models/thread.ts. -/
structure ThreadMessage where
  id : String
  author : String
  authorType : AuthorType
  content : String
  timestamp : String
  suggestion : Option Suggestion := none
  knowledgeRefs : List String := []
deriving DecidableEq, Repr

/-- `CommentThread` from src/models/thread.ts. -/
structure CommentThread where
  id : String
  documentId : String
  anchor : TextAnchor
  status : ThreadStatus
  messages : List ThreadMessage
  createdAt : String
  updatedAt : String
deriving DecidableEq, Repr

-- --- Anchor resolver (src/storage/anchor.ts) ---

inductive ResolveMethod
  | exact
  | textSearch
  | headingFallback
deriving DecidableEq, Repr

/-- `ResolvedAnchor` from src/storage/anchor.ts. -/
structure ResolvedAnchor where
  startOffset : Int
  endOffset : Int
  method : ResolveMethod
deriving DecidableEq, Repr

/-- Distance of a candidate occurrence from the anchor's preferred offset,
`Math.abs(idx - preferredOffset)` in `findClosestMatch`. -/
def matchDist (preferred : Int) (idx : Nat) : Int :=
  |(idx : Int) - preferred|

/-- One step of the `findClosestMatch` scan loop: keep the current best
unless the new occurrence is strictly closer (`distance < bestDistance`);
the initial best distance is `Infinity`, so the first occurrence is
always taken. -/
def stepClosest (preferred : Int) (best : Option Nat) (idx : Nat) : Option Nat :=
  match best with
  | none => some idx
  | some b => if matchDist preferred idx < matchDist preferred b then some idx else some b

/-- All occurrence starts of `needle` in `haystack`, in increasing order;
exactly the indices visited by the `while`/`indexOf` loop of
`findClosestMatch` (which restarts at `idx + 1`, so overlapping
occurrences are all visited). -/
def occurrenceStarts (needle haystack : List Char) : List Nat :=
  (List.range haystack.length).filter (occursAt needle haystack)

/-- `findClosestMatch` from src/storage/anchor.ts: the occurrence of
`needle` closest to `preferredOffset`, scanning left to right and keeping
the current best on ties.  Returns `none` for an empty needle. -/
def findClosestMatch (needle haystack : List Char) (preferredOffset : Int) : Option Nat :=
  if needle.length = 0 then none
  else (occurrenceStarts needle haystack).foldl (stepClosest preferredOffset) none

/-- Number of leading `#` characters, embedding the regex match `/^#+/`. -/
def leadingHashes (l : List Char) : Nat :=
  (l.takeWhile (fun c => c = '#')).length

/-- Whether position `i` is a line start for a multiline `^` regex anchor. -/
def lineStartAt (l : List Char) (i : Nat) : Bool :=
  decide (i = 0) || decide (l[i - 1]? = some '\n')

/-- Whether the regex `#{1,level} ` matches at position `i` of `l`:
the maximal run of `#` at `i` has length `c` with `1 ≤ c ≤ level` and is
followed by a space (greedy matching with backtracking forces the match
to consume the whole run). -/
def headingRunAt (level : Nat) (l : List Char) (i : Nat) : Bool :=
  let c := leadingHashes (l.drop i)
  decide (1 ≤ c) && decide (c ≤ level) && decide ((l.drop i)[c]? = some ' ')

/-- Embeds `headingPattern.exec(afterHeading)` for the multiline regex
`^#{1,level} `: the index of the first match, scanning left to right. -/
def nextHeadingIndex (level : Nat) (l : List Char) : Option Nat :=
  (List.range (l.length + 1)).find? (fun i => lineStartAt l i && headingRunAt level l i)

/-- `resolveViaHeading` from src/storage/anchor.ts: find the recorded
heading, bound its section at the next heading of equal-or-higher level,
then search for the anchor text inside that section. -/
def resolveViaHeading (anchorText documentContent sectionHeading : List Char) : Option Nat :=
  match strIndexOf sectionHeading documentContent with
  | none => none
  | some headingIdx =>
    let headingLevel := max (leadingHashes sectionHeading) 1
    let afterHeading := documentContent.drop (headingIdx + sectionHeading.length)
    let sectionEnd :=
      match nextHeadingIndex headingLevel afterHeading with
      | some m => headingIdx + sectionHeading.length + m
      | none => documentContent.length
    let sectionContent := (documentContent.take sectionEnd).drop headingIdx
    match strIndexOf anchorText sectionContent with
    | none => none
    | some localIdx => some (headingIdx + localIdx)

/-- The layer-1 exact-offset condition of `resolveAnchor`:
`startOffset >= 0 && endOffset <= len && startOffset < endOffset &&
documentContent.slice(startOffset, endOffset) === anchorText`. -/
def exactMatches (anchor : TextAnchor) (documentContent : List Char) : Bool :=
  decide (0 ≤ anchor.startOffset) &&
  decide (anchor.endOffset ≤ (documentContent.length : Int)) &&
  decide (anchor.startOffset < anchor.endOffset) &&
  decide (jsSlice documentContent anchor.startOffset anchor.endOffset = anchor.anchorText)

/-- JS truthiness of the optional `sectionHeading` field: `undefined` and
the empty string are falsy. -/
def headingTruthy (h : Option (List Char)) : Bool :=
  match h with
  | none => false
  | some s => decide (s ≠ [])

/-- `resolveAnchor` from src/storage/anchor.ts: empty-document guard, then
exact offsets, then closest text search, then heading fallback. -/
def resolveAnchor (anchor : TextAnchor) (documentContent : List Char) : Option ResolvedAnchor :=
  if documentContent.length = 0 then none
  else if exactMatches anchor documentContent then
    some ⟨anchor.startOffset, anchor.endOffset, ResolveMethod.exact⟩
  else
    match findClosestMatch anchor.anchorText documentContent anchor.startOffset with
    | some idx =>
      some ⟨(idx : Int), (idx : Int) + anchor.anchorText.length, ResolveMethod.textSearch⟩
    | none =>
      if headingTruthy anchor.sectionHeading then
        match resolveViaHeading anchor.anchorText documentContent
            (anchor.sectionHeading.getD []) with
        | some idx =>
          some ⟨(idx : Int), (idx : Int) + anchor.anchorText.length, ResolveMethod.headingFallback⟩
        | none => none
      else none

-- --- Anchor index offset shifting (src/storage/anchor.ts, AnchorIndex) ---

/-- The per-anchor branch logic of `AnchorIndex.applyOffsetShift`: shift
anchors entirely after the edit, keep anchors inside the edited region for
re-resolution, clamp the end of partially overlapping anchors. -/
def shiftAnchor (changeFrom changeTo insertLength : Int) (a : TextAnchor) : TextAnchor :=
  let delta := insertLength - (changeTo - changeFrom)
  if changeTo ≤ a.startOffset then
    { a with startOffset := a.startOffset + delta, endOffset := a.endOffset + delta }
  else if changeFrom ≤ a.startOffset ∧ a.endOffset ≤ changeTo then
    a
  else if changeFrom < a.endOffset then
    { a with endOffset := max a.startOffset (a.endOffset + delta) }
  else
    a

/-- `AnchorIndex.applyOffsetShift` over the index's thread map (the interval
tree is a derived query cache rebuilt from these anchors and carries no
extra state): no-op when `delta` is zero, otherwise every held anchor is
shifted in place. -/
def applyOffsetShift (changeFrom changeTo insertLength : Int)
    (threads : List CommentThread) : List CommentThread :=
  if insertLength - (changeTo - changeFrom) = 0 then threads
  else threads.map (fun t => { t with anchor := shiftAnchor changeFrom changeTo insertLength t.anchor })

-- --- Offline-aware synchronization core (src/backend/protocol.ts) ---

/-- `MAX_RETRY_COUNT` from src/backend/protocol.ts. -/
def maxRetryCount : Nat := 3

/-- The payload of an outbox entry (`payload: unknown` in the source holds
one of these shapes, matching `forwardToBackend`'s switch). -/
inductive OutboxPayload
  | createThread (anchor : TextAnchor) (firstMessage : Option ThreadMessage)
  | addMessage (threadId : String) (message : ThreadMessage)
  | threadOnly (threadId : String)
  | suggestionRef (threadId messageId : String)
deriving DecidableEq, Repr

/-- `OutboxEntry` from src/backend/protocol.ts. -/
structure OutboxEntry where
  type : String
  payload : OutboxPayload
  timestamp : String
  retryCount : Nat
deriving DecidableEq, Repr

/-- The error taxonomy of the core's thrown `Error`s, one constructor per
throw site (the source throws `Error` with a distinguishing message). -/
inductive BackendError
  | noActiveDocument
  | threadNotFound
  | messageNotFound
  | noSuggestion
  | alreadyDecided
  | staleSuggestion
deriving DecidableEq, Repr

/-- The mutable state of an `OfflineAwareBackend` together with its
collaborators: the wrapped backend's connectivity, the active file path,
the vault's current content of that file, the in-memory thread list, the
sidecar-persisted thread list for the active file, and the outbox. -/
structure BackendState where
  connected : Bool
  activeFile : Option String
  docContent : List Char
  threads : List CommentThread
  persisted : List CommentThread
  outbox : List OutboxEntry
deriving DecidableEq, Repr

/-- Replaces the first element satisfying `p` by its image under `f`,
embedding a JS in-place mutation of the object returned by `find`. -/
def updateFirst (p : α → Bool) (f : α → α) : List α → List α
  | [] => []
  | x :: xs => if p x then f x :: xs else x :: updateFirst p f xs

/-- Appends one outbox entry, embedding `enqueue(type, payload)`
(`retryCount` starts at 0, `timestamp` is `nowISO()`). -/
def enqueue (st : BackendState) (t : String) (payload : OutboxPayload)
    (now : String) : BackendState :=
  { st with outbox := st.outbox ++ [⟨t, payload, now, 0⟩] }

/-- The forward-or-queue tail shared by every mutating operation: when
connected, a failed forward (`remoteOk = false`) is queued; when
disconnected, the operation is queued directly. -/
def forwardOrQueue (st : BackendState) (t : String) (payload : OutboxPayload)
    (now : String) (remoteOk : Bool) : BackendState :=
  if st.connected then
    if remoteOk then st else enqueue st t payload now
  else enqueue st t payload now

/-- `OfflineAwareBackend.createThread`: sidecar-first append of a freshly
built thread (`createThread` factory from src/models/thread.ts with a new
id and the current time), then forward-or-queue.  Returns the thrown
error (if any), the post-call state, and the returned thread. -/
def createThread (st : BackendState) (anchor : TextAnchor)
    (firstMessage : Option ThreadMessage) (newId now : String)
    (remoteOk : Bool) : Option BackendError × BackendState × Option CommentThread :=
  match st.activeFile with
  | none => (some BackendError.noActiveDocument, st, none)
  | some path =>
    let thread : CommentThread :=
      { id := newId, documentId := path, anchor := anchor,
        status := ThreadStatus.open,
        messages := match firstMessage with | some m => [m] | none => [],
        createdAt := now, updatedAt := now }
    let threads' := st.threads ++ [thread]
    let st' := { st with threads := threads', persisted := threads' }
    (none,
     forwardOrQueue st' "createThread" (OutboxPayload.createThread anchor firstMessage) now remoteOk,
     some thread)

/-- `OfflineAwareBackend.acceptSuggestion`: precondition checks (no
suggestion, already decided), stale check of `originalText` against the
document text restricted to the anchor range, atomic replacement,
offset-shift re-anchoring of all held anchors, status flip, persist,
forward-or-queue. -/
def acceptSuggestion (st : BackendState) (threadId messageId : String)
    (now : String) (remoteOk : Bool) : Option BackendError × BackendState :=
  match st.activeFile with
  | none => (some BackendError.noActiveDocument, st)
  | some _ =>
    match st.threads.find? (fun t => t.id == threadId) with
    | none => (some BackendError.threadNotFound, st)
    | some thread =>
      match thread.messages.find? (fun m => m.id == messageId) with
      | none => (some BackendError.messageNotFound, st)
      | some message =>
        match message.suggestion with
        | none => (some BackendError.noSuggestion, st)
        | some sugg =>
          if sugg.status ≠ SuggestionStatus.pending then
            (some BackendError.alreadyDecided, st)
          else
            let content := st.docContent
            let currentText := jsSlice content thread.anchor.startOffset thread.anchor.endOffset
            if jsIncludes sugg.originalText currentText = false then
              (some BackendError.staleSuggestion, st)
            else
              let localIdx := (strIndexOf sugg.originalText currentText).getD 0
              let replaceStart := thread.anchor.startOffset + localIdx
              let replaceEnd := replaceStart + sugg.originalText.length
              let newContent :=
                jsSlice content 0 replaceStart ++ sugg.replacementText ++ jsSliceFrom content replaceEnd
              let delta := (sugg.replacementText.length : Int) - (sugg.originalText.length : Int)
              let threads1 :=
                if delta ≠ 0 then
                  applyOffsetShift replaceStart replaceEnd (sugg.replacementText.length : Int) st.threads
                else st.threads
              let threads2 :=
                updateFirst (fun t => t.id == threadId)
                  (fun t =>
                    { t with
                      messages :=
                        updateFirst (fun m => m.id == messageId)
                          (fun m => { m with suggestion := some { sugg with status := SuggestionStatus.accepted } })
                          t.messages,
                      updatedAt := now })
                  threads1
              let st' := { st with docContent := newContent, threads := threads2, persisted := threads2 }
              (none,
               forwardOrQueue st' "acceptSuggestion"
                 (OutboxPayload.suggestionRef threadId messageId) now remoteOk)

/-- `OfflineAwareBackend.rejectSuggestion`: the same precondition checks,
then a pure status flip, persist, forward-or-queue; the document is never
touched. -/
def rejectSuggestion (st : BackendState) (threadId messageId : String)
    (now : String) (remoteOk : Bool) : Option BackendError × BackendState :=
  match st.activeFile with
  | none => (some BackendError.noActiveDocument, st)
  | some _ =>
    match st.threads.find? (fun t => t.id == threadId) with
    | none => (some BackendError.threadNotFound, st)
    | some thread =>
      match thread.messages.find? (fun m => m.id == messageId) with
      | none => (some BackendError.messageNotFound, st)
      | some message =>
        match message.suggestion with
        | none => (some BackendError.noSuggestion, st)
        | some sugg =>
          if sugg.status ≠ SuggestionStatus.pending then
            (some BackendError.alreadyDecided, st)
          else
            let threads' :=
              updateFirst (fun t => t.id == threadId)
                (fun t =>
                  { t with
                    messages :=
                      updateFirst (fun m => m.id == messageId)
                        (fun m => { m with suggestion := some { sugg with status := SuggestionStatus.rejected } })
                        t.messages,
                    updatedAt := now })
                st.threads
            let st' := { st with threads := threads', persisted := threads' }
            (none,
             forwardOrQueue st' "rejectSuggestion"
               (OutboxPayload.suggestionRef threadId messageId) now remoteOk)

/-- `OfflineAwareBackend.handleIncomingThread` (with the inner
`reanchorAndAddThread` inlined, executed under the cooperative
single-thread scheduling model): duplicate ids are discarded with no
callback; a new thread is re-anchored against the current document when a
document is active, appended, and persisted.  The returned `Bool` records
whether the local new-thread callback fired. -/
def handleIncomingThread (st : BackendState) (thread : CommentThread) :
    BackendState × Bool :=
  if st.threads.any (fun t => t.id == thread.id) then (st, false)
  else
    match st.activeFile with
    | some _ =>
      let anchor' :=
        match resolveAnchor thread.anchor st.docContent with
        | some r => { thread.anchor with startOffset := r.startOffset, endOffset := r.endOffset }
        | none => thread.anchor
      let t' := { thread with anchor := anchor' }
      let threads' := st.threads ++ [t']
      ({ st with threads := threads', persisted := threads' }, true)
    | none =>
      ({ st with threads := st.threads ++ [thread] }, true)

/-- `OfflineAwareBackend.handleIncomingMessage`: unknown thread ids and
duplicate message ids are discarded with no callback; otherwise the
message is appended, `updatedAt` bumped, and the set persisted when a
document is active.  The returned `Bool` records whether the local
new-message callback fired. -/
def handleIncomingMessage (st : BackendState) (threadId : String)
    (message : ThreadMessage) (now : String) : BackendState × Bool :=
  match st.threads.find? (fun t => t.id == threadId) with
  | none => (st, false)
  | some thread =>
    if thread.messages.any (fun m => m.id == message.id) then (st, false)
    else
      let threads' :=
        updateFirst (fun t => t.id == threadId)
          (fun t => { t with messages := t.messages ++ [message], updatedAt := now })
          st.threads
      let persisted' := if st.activeFile.isSome then threads' else st.persisted
      ({ st with threads := threads', persisted := persisted' }, true)

/-- The `while` loop of `OfflineAwareBackend.drainOutbox` during one drain
cycle in which the connection holds: the head entry is forwarded; on
success it is removed and the loop continues; on failure its retry count
is incremented, and the cycle either discards it and continues (count
reached `MAX_RETRY_COUNT`) or stops with the entry still at the head.
`succeeds` is the oracle for whether forwarding a given entry succeeds. -/
def drainLoop (succeeds : OutboxEntry → Bool) : List OutboxEntry → List OutboxEntry
  | [] => []
  | e :: rest =>
    if succeeds e then drainLoop succeeds rest
    else if maxRetryCount ≤ e.retryCount + 1 then drainLoop succeeds rest
    else { e with retryCount := e.retryCount + 1 } :: rest

/-- The entries the drain cycle attempts to forward, in order. -/
def drainAttempts (succeeds : OutboxEntry → Bool) : List OutboxEntry → List OutboxEntry
  | [] => []
  | e :: rest =>
    if succeeds e then e :: drainAttempts succeeds rest
    else if maxRetryCount ≤ e.retryCount + 1 then e :: drainAttempts succeeds rest
    else [e]

/-- `OfflineAwareBackend.drainOutbox`: runs the drain loop on the outbox
(the loop guard re-checks connectivity each iteration; connectivity is
held fixed for the cycle).  Only the outbox is touched. -/
def drainOutbox (succeeds : OutboxEntry → Bool) (st : BackendState) : BackendState :=
  if st.connected then { st with outbox := drainLoop succeeds st.outbox } else st

-- --- Sidecar storage (src/storage/sidecar.ts, src/models/thread.ts) ---

/-- The fields of an Obsidian `TFile` consumed by `SidecarStorage`. -/
structure TFileModel where
  path : String
  extension : String
deriving DecidableEq, Repr

/-- A JSON value as produced by `JSON.parse` (object keys are unique after
parsing; lookup takes the first binding). -/
inductive Json
  | null
  | bool (b : Bool)
  | num (n : Int)
  | str (s : String)
  | arr (items : List Json)
  | obj (fields : List (String × Json))

/-- What `vault.getAbstractFileByPath` plus `vault.read` yield at a path:
nothing, a folder (not a `TFile`), or a readable file with its content. -/
inductive VaultItem
  | folder
  | file (content : String)
deriving DecidableEq, Repr

/-- JS property read `obj[key]`: `none` is `undefined` (arrays and
primitives have no string-keyed data properties from `JSON.parse`). -/
def Json.getField (j : Json) (key : String) : Option Json :=
  match j with
  | .obj fields => (fields.find? (fun kv => kv.1 == key)).map (fun kv => kv.2)
  | _ => none

/-- The JS `in` operator on a parsed JSON value. -/
def Json.hasField (j : Json) (key : String) : Bool :=
  match j with
  | .obj fields => fields.any (fun kv => kv.1 == key)
  | _ => false

/-- JS truthiness of a parsed JSON value. -/
def Json.truthy (j : Json) : Bool :=
  match j with
  | .null => false
  | .bool b => b
  | .num n => decide (n ≠ 0)
  | .str s => decide (s ≠ "")
  | .arr _ => true
  | .obj _ => true

/-- The JS test `typeof v === "object"` (true for `null`, arrays and plain
objects alike). -/
def Json.typeofObject (j : Json) : Bool :=
  match j with
  | .null => true
  | .arr _ => true
  | .obj _ => true
  | _ => false

/-- The check `typeof data !== "object" || data === null` used by every
validator in src/models/thread.ts. -/
def Json.isNonNullObject (j : Json) : Bool :=
  match j with
  | .arr _ => true
  | .obj _ => true
  | _ => false

/-- `validateMessage` from src/models/thread.ts, as its validity verdict
(the source packages the verdict with a diagnostic string; the string is
not modelled).  Note: a non-string `authorType` and a non-string
suggestion `status` pass. -/
def validateMessage (m : Json) : Bool :=
  m.isNonNullObject &&
  (match m.getField "id" with
   | some (Json.str s) => decide (s ≠ "")
   | _ => false) &&
  (match m.getField "authorType" with
   | some (Json.str s) => decide (s = "human") || decide (s = "agent")
   | _ => true) &&
  (match m.getField "suggestion" with
   | some sg =>
     if sg.truthy then
       match sg.getField "status" with
       | some (Json.str s) =>
         decide (s = "pending") || decide (s = "accepted") || decide (s = "rejected")
       | _ => true
     else true
   | none => true)

/-- `validateThread` from src/models/thread.ts, as its validity verdict. -/
def validateThread (t : Json) : Bool :=
  t.isNonNullObject &&
  (match t.getField "id" with
   | some (Json.str s) => decide (s ≠ "")
   | _ => false) &&
  (match t.getField "anchor" with
   | some a => a.truthy && a.typeofObject
   | none => false) &&
  (match t.getField "status" with
   | some (Json.str s) => decide (s = "open") || decide (s = "resolved")
   | _ => true) &&
  (match t.getField "messages" with
   | some (Json.arr ms) => ms.all validateMessage
   | _ => false)

/-- `validateSidecarFile` from src/models/thread.ts, as its validity
verdict: a non-null object with numeric `version` equal to the current
schema version (1) and a `threads` array of valid threads. -/
def validateSidecarFile (data : Json) : Bool :=
  data.isNonNullObject &&
  (match data.getField "version" with
   | some (Json.num n) => decide (n = 1)
   | _ => false) &&
  (match data.getField "threads" with
   | some (Json.arr ts) => ts.all validateThread
   | _ => false)

/-- The `(data as SidecarFile).threads` projection performed after a
successful validation. -/
def sidecarThreads (data : Json) : List Json :=
  match data.getField "threads" with
  | some (Json.arr ts) => ts
  | _ => []

namespace SidecarStorage

/-- `SidecarStorage.getPath`: rejects non-`.md` files by throwing; for a
markdown file, swaps the `.md` extension for `.agent-comments.json`. -/
def getPath (documentFile : TFileModel) : Except String String :=
  if documentFile.extension ≠ "md" then
    Except.error ("Only .md files are supported, got: " ++ documentFile.path)
  else
    Except.ok (documentFile.path.dropRight 3 ++ ".agent-comments.json")

/-- `SidecarStorage.load`: `getPath` (outside the try block), sidecar
lookup, read, `JSON.parse` (given as the `parse` collaborator, `none`
embedding a thrown `SyntaxError`) and schema validation; every failure
after `getPath` yields the empty list. -/
def load (lookup : String → Option VaultItem) (parse : String → Option Json)
    (documentFile : TFileModel) : Except String (List Json) :=
  match getPath documentFile with
  | Except.error e => Except.error e
  | Except.ok path =>
    match lookup path with
    | none => Except.ok []
    | some VaultItem.folder => Except.ok []
    | some (VaultItem.file content) =>
      match parse content with
      | none => Except.ok []
      | some data =>
        if validateSidecarFile data then Except.ok (sidecarThreads data)
        else Except.ok []

end SidecarStorage

-- --- Helper lemmas ---

/-- A slice with in-range offsets `0 ≤ s < e ≤ len` is non-empty. -/
theorem jsSlice_ne_nil (l : List Char) (s e : Int)
    (hs : 0 ≤ s) (he : e ≤ (l.length : Int)) (hlt : s < e) :
    jsSlice l s e ≠ [] := by
  intro hnil
  have hlen := congrArg List.length hnil
  simp only [jsSlice, jsClampIndex, List.length_drop, List.length_take, List.length_nil] at hlen
  rw [if_neg (by omega), if_neg (by omega)] at hlen
  have h1 : s.toNat < e.toNat := by omega
  have h2 : e.toNat ≤ l.length := by omega
  omega

/-- For a non-empty needle, an occurrence start is strictly below the
haystack length. -/
theorem occursAt_lt_length (needle haystack : List Char) (i : Nat)
    (hne : needle ≠ []) (h : occursAt needle haystack i = true) :
    i < haystack.length := by
  simp only [occursAt, decide_eq_true_eq] at h
  by_contra hge
  rw [List.drop_eq_nil_of_le (by omega), List.take_nil] at h
  exact hne h.symm


-- --- C3: offset shift after the edit region ---

/-- C3: for every anchor interval `[s, e)` held in the index with
`s >= changedTo`, after `applyOffsetShift(changedFrom, changedTo,
insertedLength)` the anchor's interval equals `[s + delta, e + delta)`
where `delta = insertedLength - (changedTo - changedFrom)`. -/
theorem applyOffsetShift_shifts_anchors_after_edit
    (changeFrom changeTo insertLength : Int)
    (threads : List CommentThread) (i : Nat) (t : CommentThread)
    (ht : threads[i]? = some t) (h : changeTo ≤ t.anchor.startOffset) :
    ∃ t', (applyOffsetShift changeFrom changeTo insertLength threads)[i]? = some t' ∧
      t'.anchor.startOffset = t.anchor.startOffset + (insertLength - (changeTo - changeFrom)) ∧
      t'.anchor.endOffset = t.anchor.endOffset + (insertLength - (changeTo - changeFrom)) := by
  unfold applyOffsetShift
  by_cases h0 : insertLength - (changeTo - changeFrom) = 0
  · exact ⟨t, by rw [if_pos h0]; exact ht, by omega, by omega⟩
  · rw [if_neg h0]
    refine ⟨{ t with anchor := shiftAnchor changeFrom changeTo insertLength t.anchor }, ?_, ?_, ?_⟩
    · rw [List.getElem?_map, ht]; rfl
    · simp only [shiftAnchor, if_pos h]
    · simp only [shiftAnchor, if_pos h]

/-- Witness for C3 at a concrete index state: one thread anchored at
`[7, 9)`, an edit replacing `[3, 5)` by 10 characters (`delta = 8`). -/
theorem applyOffsetShift_shifts_anchors_after_edit_witness :
    ∃ t', (applyOffsetShift 3 5 10
        [⟨"w", "d", ⟨['x'], 7, 9, none⟩, ThreadStatus.open, [], "c", "u"⟩])[0]? = some t' ∧
      t'.anchor.startOffset = 7 + (10 - (5 - 3)) ∧
      t'.anchor.endOffset = 9 + (10 - (5 - 3)) :=
  applyOffsetShift_shifts_anchors_after_edit 3 5 10
    [⟨"w", "d", ⟨['x'], 7, 9, none⟩, ThreadStatus.open, [], "c", "u"⟩] 0
    ⟨"w", "d", ⟨['x'], 7, 9, none⟩, ThreadStatus.open, [], "c", "u"⟩ rfl (by decide)

-- --- C8: empty anchorText (corrected) ---

/-- Counterexample to C8 as stated: an anchor with empty `anchorText` but a
recorded section heading that occurs in the document does NOT resolve to
`NotFound` — the heading-fallback layer has no empty-needle guard
(`sectionContent.indexOf("")` is 0), so it returns a zero-width
`heading-fallback` result at the heading's offset. -/
theorem resolveAnchor_empty_anchorText_counterexample :
    (TextAnchor.mk [] 0 0 (some "# H".toList)).anchorText = [] ∧
    resolveAnchor ⟨[], 0, 0, some "# H".toList⟩ "# H\nx".toList =
      some ⟨0, 0, ResolveMethod.headingFallback⟩ := by
  constructor
  · rfl
  · decide

/-- C8 as amended: an empty `anchorText` never matches under the
exact-offset or text-search layers, and `resolveAnchor` returns `NotFound`
(`none`) whenever in addition the recorded `sectionHeading` is absent,
empty, or does not occur in the document; only a present, non-empty
recorded heading that occurs in the document produces a (zero-width)
heading-fallback result instead. -/
theorem resolveAnchor_empty_anchorText_orphans
    (a : TextAnchor) (doc : List Char)
    (h1 : a.anchorText = [])
    (h2 : ∀ hd, a.sectionHeading = some hd → hd = [] ∨ strIndexOf hd doc = none) :
    resolveAnchor a doc = none := by
  unfold resolveAnchor
  by_cases hd0 : doc.length = 0
  · rw [if_pos hd0]
  · rw [if_neg hd0]
    have hex : exactMatches a doc = false := by
      by_cases hs : 0 ≤ a.startOffset
      · by_cases he : a.endOffset ≤ (doc.length : Int)
        · by_cases hlt : a.startOffset < a.endOffset
          · have hne := jsSlice_ne_nil doc a.startOffset a.endOffset hs he hlt
            simp [exactMatches, h1, hne]
          · simp [exactMatches, hlt]
        · simp [exactMatches, he]
      · simp [exactMatches, hs]
    rw [if_neg (by rw [hex]; exact Bool.false_ne_true)]
    have hfc : findClosestMatch a.anchorText doc a.startOffset = none := by
      unfold findClosestMatch
      rw [if_pos (by rw [h1]; rfl)]
    rw [hfc]
    match hsh : a.sectionHeading with
    | none => rfl
    | some hd =>
      rcases h2 hd hsh with hnil | hidx
      · subst hnil
        simp [headingTruthy]
      · by_cases htr : headingTruthy (some hd) = true
        · rw [if_pos htr]
          have : resolveViaHeading a.anchorText doc ((some hd).getD []) = none := by
            simp only [Option.getD_some, resolveViaHeading, hidx]
          rw [this]
        · rw [if_neg htr]

/-- Witness for the amended C8: an empty-anchorText anchor whose recorded
heading does not occur in the document is orphaned. -/
theorem resolveAnchor_empty_anchorText_orphans_witness :
    resolveAnchor ⟨[], 5, 9, some "## Gone".toList⟩ "abc def".toList = none :=
  resolveAnchor_empty_anchorText_orphans ⟨[], 5, 9, some "## Gone".toList⟩ "abc def".toList
    rfl (by intro hd hhd; cases hhd; exact Or.inr (by decide))

-- --- C9: sidecar load totality (corrected) ---

/-- Counterexample to C9 as stated: `load` on a non-markdown document file
throws — `getPath` sits outside the try block and rejects any file whose
extension is not `md`. -/
theorem sidecar_load_counterexample :
    SidecarStorage.load (fun _ => none) (fun _ => none) ⟨"a.txt", "txt"⟩ =
      Except.error "Only .md files are supported, got: a.txt" := by
  rfl

/-- C9 as amended: for every markdown (`.md`) document file, `load` returns
normally with a list of threads; if the sidecar file is absent, is not a
readable file, contains malformed JSON, or fails schema validation, it
returns the empty list.  (For non-`.md` files `load` instead propagates
`getPath`'s error.) -/
theorem sidecar_load_md_total
    (lookup : String → Option VaultItem) (parse : String → Option Json)
    (f : TFileModel) (h : f.extension = "md") :
    (∃ ts, SidecarStorage.load lookup parse f = Except.ok ts) ∧
    (∀ path, SidecarStorage.getPath f = Except.ok path →
      (lookup path = none → SidecarStorage.load lookup parse f = Except.ok []) ∧
      (lookup path = some VaultItem.folder → SidecarStorage.load lookup parse f = Except.ok []) ∧
      (∀ c, lookup path = some (VaultItem.file c) → parse c = none →
        SidecarStorage.load lookup parse f = Except.ok []) ∧
      (∀ c d, lookup path = some (VaultItem.file c) → parse c = some d →
        validateSidecarFile d = false → SidecarStorage.load lookup parse f = Except.ok [])) := by
  have hp : SidecarStorage.getPath f =
      Except.ok (f.path.dropRight 3 ++ ".agent-comments.json") := by
    unfold SidecarStorage.getPath
    rw [if_neg (by simp [h])]
  constructor
  · simp only [SidecarStorage.load, hp]
    split
    · exact ⟨[], rfl⟩
    · exact ⟨[], rfl⟩
    · split
      · exact ⟨[], rfl⟩
      · split
        · exact ⟨_, rfl⟩
        · exact ⟨[], rfl⟩
  · intro path hpath
    rw [hp] at hpath
    injection hpath with hpath
    subst hpath
    refine ⟨?_, ?_, ?_, ?_⟩
    · intro hl; simp only [SidecarStorage.load, hp, hl]
    · intro hl; simp only [SidecarStorage.load, hp, hl]
    · intro c hl hc; simp only [SidecarStorage.load, hp, hl, hc]
    · intro c d hl hc hv
      simp only [SidecarStorage.load, hp, hl, hc, hv]
      simp

/-- Witness for the amended C9 on a concrete markdown file with an absent
sidecar, and a concrete malformed-JSON sidecar. -/
theorem sidecar_load_md_total_witness :
    SidecarStorage.load (fun _ => none) (fun _ => none) ⟨"n.md", "md"⟩ = Except.ok [] ∧
    SidecarStorage.load (fun _ => some (VaultItem.file "not json")) (fun _ => none)
      ⟨"n.md", "md"⟩ = Except.ok [] := by
  constructor
  · exact ((sidecar_load_md_total (fun _ => none) (fun _ => none) ⟨"n.md", "md"⟩ rfl).2
      "n.agent-comments.json" rfl).1 rfl
  · exact (((sidecar_load_md_total (fun _ => some (VaultItem.file "not json")) (fun _ => none)
      ⟨"n.md", "md"⟩ rfl).2 "n.agent-comments.json" rfl).2.2.1 "not json" rfl rfl)

-- --- C1: stale suggestions are rejected without mutation ---

/-- C1: with an active document, if a pending suggestion's `originalText`
is not a substring of the current document text restricted to the
thread's anchor range `[startOffset, endOffset)`, then `acceptSuggestion`
fails with the stale-suggestion error and returns the state unchanged —
the document text and the suggestion status are untouched, and an
occurrence of `originalText` elsewhere in the document is never used. -/
theorem acceptSuggestion_stale_fails_without_mutation
    (st : BackendState) (f tid mid now : String) (remoteOk : Bool)
    (thread : CommentThread) (message : ThreadMessage) (sugg : Suggestion)
    (hact : st.activeFile = some f)
    (hth : st.threads.find? (fun t => t.id == tid) = some thread)
    (hmsg : thread.messages.find? (fun m => m.id == mid) = some message)
    (hsugg : message.suggestion = some sugg)
    (hpend : sugg.status = SuggestionStatus.pending)
    (hstale : jsIncludes sugg.originalText
        (jsSlice st.docContent thread.anchor.startOffset thread.anchor.endOffset) = false) :
    acceptSuggestion st tid mid now remoteOk = (some BackendError.staleSuggestion, st) := by
  simp only [acceptSuggestion, hact, hth, hmsg, hsugg, hpend, hstale]
  simp

/-- The message used by the C1 witness: carries a pending suggestion whose
`originalText` is `"zz"`. -/
def staleExampleMessage : ThreadMessage :=
  { id := "m1", author := "agent", authorType := AuthorType.agent,
    content := "c", timestamp := "ts",
    suggestion := some ⟨"zz".toList, "q".toList, SuggestionStatus.pending⟩ }

/-- The thread used by the C1 witness: anchored at `[0, 2)`. -/
def staleExampleThread : CommentThread :=
  { id := "t1", documentId := "d.md",
    anchor := ⟨"ab".toList, 0, 2, none⟩,
    status := ThreadStatus.open,
    messages := [staleExampleMessage],
    createdAt := "c", updatedAt := "u" }

/-- Concrete state for the C1 witness: a single thread anchored at
`[0, 2)` of the document `"abzz"` carrying a pending suggestion whose
`originalText` (`"zz"`) occurs in the document only outside the anchor
range. -/
def staleExampleState : BackendState :=
  { connected := false
    activeFile := some "d.md"
    docContent := "abzz".toList
    threads := [staleExampleThread]
    persisted := []
    outbox := [] }

/-- Witness for C1: on `staleExampleState`, where `"zz"` occurs in the
document but not inside the anchor range `[0, 2)`, accepting the
suggestion fails as stale and returns the state unchanged. -/
theorem acceptSuggestion_stale_fails_without_mutation_witness :
    acceptSuggestion staleExampleState "t1" "m1" "now" false =
      (some BackendError.staleSuggestion, staleExampleState) :=
  acceptSuggestion_stale_fails_without_mutation staleExampleState "d.md" "t1" "m1" "now" false
    staleExampleThread staleExampleMessage
    ⟨"zz".toList, "q".toList, SuggestionStatus.pending⟩
    rfl (by decide) (by decide) (by decide) rfl (by decide)

-- --- C2: suggestion terminality ---

/-- C2: once a suggestion's status has left `pending` (it is `accepted` or
`rejected`), any further `acceptSuggestion` or `rejectSuggestion` call on
that message fails with the already-decided error and returns the state
unchanged — no mutation of the suggestion, the thread, or the document is
performed before the error. -/
theorem suggestion_terminal_already_decided
    (st : BackendState) (f tid mid now : String) (remoteOk : Bool)
    (thread : CommentThread) (message : ThreadMessage) (sugg : Suggestion)
    (hact : st.activeFile = some f)
    (hth : st.threads.find? (fun t => t.id == tid) = some thread)
    (hmsg : thread.messages.find? (fun m => m.id == mid) = some message)
    (hsugg : message.suggestion = some sugg)
    (hdec : sugg.status ≠ SuggestionStatus.pending) :
    acceptSuggestion st tid mid now remoteOk = (some BackendError.alreadyDecided, st) ∧
    rejectSuggestion st tid mid now remoteOk = (some BackendError.alreadyDecided, st) := by
  constructor
  · simp only [acceptSuggestion, hact, hth, hmsg, hsugg]
    rw [if_pos (by simpa using hdec)]
  · simp only [rejectSuggestion, hact, hth, hmsg, hsugg]
    rw [if_pos (by simpa using hdec)]

/-- The message used by the C2 witness: its suggestion is already
`accepted`. -/
def decidedExampleMessage : ThreadMessage :=
  { id := "m1", author := "agent", authorType := AuthorType.agent,
    content := "c", timestamp := "ts",
    suggestion := some ⟨"ab".toList, "q".toList, SuggestionStatus.accepted⟩ }

/-- The thread used by the C2 witness. -/
def decidedExampleThread : CommentThread :=
  { id := "t1", documentId := "d.md",
    anchor := ⟨"ab".toList, 0, 2, none⟩,
    status := ThreadStatus.open,
    messages := [decidedExampleMessage],
    createdAt := "c", updatedAt := "u" }

/-- Concrete state for the C2 witness. -/
def decidedExampleState : BackendState :=
  { connected := true
    activeFile := some "d.md"
    docContent := "abzz".toList
    threads := [decidedExampleThread]
    persisted := [decidedExampleThread]
    outbox := [] }

/-- Witness for C2: accepting or rejecting an already-accepted suggestion
fails with the already-decided error, leaving the state unchanged. -/
theorem suggestion_terminal_already_decided_witness :
    acceptSuggestion decidedExampleState "t1" "m1" "now" true =
      (some BackendError.alreadyDecided, decidedExampleState) ∧
    rejectSuggestion decidedExampleState "t1" "m1" "now" true =
      (some BackendError.alreadyDecided, decidedExampleState) :=
  suggestion_terminal_already_decided decidedExampleState "d.md" "t1" "m1" "now" true
    decidedExampleThread decidedExampleMessage
    ⟨"ab".toList, "q".toList, SuggestionStatus.accepted⟩
    rfl (by decide) (by decide) (by decide) (by decide)

-- --- C5: createThread succeeds while disconnected ---

/-- C5: with an active document and a disconnected wrapped backend,
`createThread` returns the new thread successfully (no error); afterwards
the thread is present in the in-memory thread list (`getThreads()`) and
in the persisted thread set, and exactly one new outbox entry of type
`createThread` has been appended. -/
theorem createThread_offline_durable
    (st : BackendState) (path newId now : String) (anchor : TextAnchor)
    (firstMessage : Option ThreadMessage) (remoteOk : Bool)
    (hact : st.activeFile = some path) (hconn : st.connected = false) :
    ∃ st' thread,
      createThread st anchor firstMessage newId now remoteOk = (none, st', some thread) ∧
      thread.id = newId ∧
      st'.threads = st.threads ++ [thread] ∧
      st'.persisted = st.threads ++ [thread] ∧
      st'.outbox = st.outbox ++
        [⟨"createThread", OutboxPayload.createThread anchor firstMessage, now, 0⟩] := by
  unfold createThread
  rw [hact]
  refine ⟨_, _, rfl, rfl, ?_, ?_, ?_⟩
  all_goals simp [forwardOrQueue, enqueue, hconn]

/-- Witness for C5: creating a thread on a disconnected backend with an
empty initial state. -/
theorem createThread_offline_durable_witness :
    ∃ st' thread,
      createThread ⟨false, some "d.md", "abc".toList, [], [], []⟩
          ⟨"ab".toList, 0, 2, none⟩ none "id1" "now" false = (none, st', some thread) ∧
      thread.id = "id1" ∧
      st'.threads = [] ++ [thread] ∧
      st'.persisted = [] ++ [thread] ∧
      st'.outbox = [] ++
        [⟨"createThread", OutboxPayload.createThread ⟨"ab".toList, 0, 2, none⟩ none, "now", 0⟩] :=
  createThread_offline_durable ⟨false, some "d.md", "abc".toList, [], [], []⟩
    "d.md" "id1" "now" ⟨"ab".toList, 0, 2, none⟩ none false rfl rfl

-- --- C6: outbox draining is FIFO with a retry cap ---

/-- Characterization of one drain cycle: the attempted entries form a
prefix `take k` of the outbox; every attempted entry before the last one
left the outbox by success or by reaching the retry cap; and the cycle
ends either with all attempted entries removed, or stopped at a failed
entry below the cap which stays at the head with its retry count
incremented and the tail untouched. -/
theorem drainLoop_characterization (succeeds : OutboxEntry → Bool)
    (l : List OutboxEntry) :
    ∃ k, k ≤ l.length ∧
      drainAttempts succeeds l = l.take k ∧
      (∀ i e, i + 1 < k → l[i]? = some e → succeeds e = false →
        maxRetryCount ≤ e.retryCount + 1) ∧
      ((drainLoop succeeds l = l.drop k ∧
        ∀ e ∈ l.take k, succeeds e = false → maxRetryCount ≤ e.retryCount + 1) ∨
       (∃ e, l[k - 1]? = some e ∧ 1 ≤ k ∧ succeeds e = false ∧
        e.retryCount + 1 < maxRetryCount ∧
        drainLoop succeeds l = { e with retryCount := e.retryCount + 1 } :: l.drop k)) := by
  induction l with
  | nil => exact ⟨0, by simp [drainAttempts, drainLoop]⟩
  | cons e rest ih =>
    obtain ⟨k, hk, ha, hmid, hrest⟩ := ih
    by_cases hs : succeeds e = true
    · refine ⟨k + 1, by simpa using hk, by simp [drainAttempts, hs, ha], ?_, ?_⟩
      · intro i e' hi hg hf
        match i with
        | 0 =>
          rw [List.getElem?_cons_zero] at hg
          injection hg with hg
          rw [hg] at hs
          rw [hs] at hf
          exact absurd hf (by simp)
        | j + 1 =>
          rw [List.getElem?_cons_succ] at hg
          exact hmid j e' (by omega) hg hf
      · rcases hrest with ⟨hdl, hall⟩ | ⟨e', hg, hk1, hf, hlt, hdl⟩
        · left
          constructor
          · simp [drainLoop, hs, hdl]
          · intro x hx hfx
            rw [List.take_succ_cons] at hx
            rcases List.mem_cons.mp hx with hxe | hxr
            · rw [hxe] at hfx; rw [hfx] at hs; exact absurd hs (by simp)
            · exact hall x hxr hfx
        · right
          obtain ⟨k', rfl⟩ : ∃ k', k = k' + 1 := ⟨k - 1, by omega⟩
          refine ⟨e', ?_, by omega, hf, hlt, by simp [drainLoop, hs, hdl]⟩
          simpa using hg
    · by_cases hcap : maxRetryCount ≤ e.retryCount + 1
      · refine ⟨k + 1, by simpa using hk, by simp [drainAttempts, hs, hcap, ha], ?_, ?_⟩
        · intro i e' hi hg hf
          match i with
          | 0 =>
            rw [List.getElem?_cons_zero] at hg
            injection hg with hg
            rw [hg] at hcap
            exact hcap
          | j + 1 =>
            rw [List.getElem?_cons_succ] at hg
            exact hmid j e' (by omega) hg hf
        · rcases hrest with ⟨hdl, hall⟩ | ⟨e', hg, hk1, hf, hlt, hdl⟩
          · left
            constructor
            · simp [drainLoop, hs, hcap, hdl]
            · intro x hx hfx
              rw [List.take_succ_cons] at hx
              rcases List.mem_cons.mp hx with hxe | hxr
              · rw [hxe]; exact hcap
              · exact hall x hxr hfx
          · right
            obtain ⟨k', rfl⟩ : ∃ k', k = k' + 1 := ⟨k - 1, by omega⟩
            refine ⟨e', ?_, by omega, hf, hlt, by simp [drainLoop, hs, hcap, hdl]⟩
            simpa using hg
      · refine ⟨1, by simp, by simp [drainAttempts, hs, hcap], ?_, ?_⟩
        · intro i e' hi
          omega
        · right
          refine ⟨e, by simp, le_refl 1, by simpa using hs, by omega, ?_⟩
          simp [drainLoop, hs, hcap]

/-- C6: on a drain cycle with the connection up, `drainOutbox` processes
outbox entries strictly in FIFO order from the head — the attempted
entries are a prefix of the outbox; every attempted entry except possibly
the last was removed (forwarded successfully, or discarded on reaching
`MAX_RETRY_COUNT` after its failure); if the last attempted entry failed
below the cap, draining stopped with that entry retained at the head with
its retry count incremented and no later entry skipped over or touched;
and the local thread set (and persisted set and document) is never
modified by draining. -/
theorem drainOutbox_fifo_retry_cap (succeeds : OutboxEntry → Bool)
    (st : BackendState) (h : st.connected = true) :
    (drainOutbox succeeds st).threads = st.threads ∧
    (drainOutbox succeeds st).persisted = st.persisted ∧
    (drainOutbox succeeds st).docContent = st.docContent ∧
    ∃ k, k ≤ st.outbox.length ∧
      drainAttempts succeeds st.outbox = st.outbox.take k ∧
      (∀ i e, i + 1 < k → st.outbox[i]? = some e → succeeds e = false →
        maxRetryCount ≤ e.retryCount + 1) ∧
      (((drainOutbox succeeds st).outbox = st.outbox.drop k ∧
        ∀ e ∈ st.outbox.take k, succeeds e = false → maxRetryCount ≤ e.retryCount + 1) ∨
       (∃ e, st.outbox[k - 1]? = some e ∧ 1 ≤ k ∧ succeeds e = false ∧
        e.retryCount + 1 < maxRetryCount ∧
        (drainOutbox succeeds st).outbox =
          { e with retryCount := e.retryCount + 1 } :: st.outbox.drop k)) := by
  unfold drainOutbox
  rw [if_pos h]
  exact ⟨rfl, rfl, rfl, drainLoop_characterization succeeds st.outbox⟩

/-- Concrete state for the C6 witness: two queued entries, drained while
connected with an oracle that fails entries marked `"addMessage"`. -/
def drainExampleState : BackendState :=
  { connected := true
    activeFile := some "d.md"
    docContent := "abc".toList
    threads := [decidedExampleThread]
    persisted := [decidedExampleThread]
    outbox :=
      [⟨"createThread", OutboxPayload.createThread ⟨"ab".toList, 0, 2, none⟩ none, "t0", 0⟩,
       ⟨"addMessage", OutboxPayload.threadOnly "t1", "t1", 0⟩] }

/-- Witness for C6: draining `drainExampleState` with an oracle that
forwards `createThread` entries and fails `addMessage` entries. -/
theorem drainOutbox_fifo_retry_cap_witness :
    (drainOutbox (fun e => e.type == "createThread") drainExampleState).threads =
      drainExampleState.threads ∧
    (drainOutbox (fun e => e.type == "createThread") drainExampleState).persisted =
      drainExampleState.persisted ∧
    (drainOutbox (fun e => e.type == "createThread") drainExampleState).docContent =
      drainExampleState.docContent ∧
    ∃ k, k ≤ drainExampleState.outbox.length ∧
      drainAttempts (fun e => e.type == "createThread") drainExampleState.outbox =
        drainExampleState.outbox.take k ∧
      (∀ i e, i + 1 < k → drainExampleState.outbox[i]? = some e →
        (fun e => e.type == "createThread") e = false →
        maxRetryCount ≤ e.retryCount + 1) ∧
      (((drainOutbox (fun e => e.type == "createThread") drainExampleState).outbox =
          drainExampleState.outbox.drop k ∧
        ∀ e ∈ drainExampleState.outbox.take k,
          (fun e => e.type == "createThread") e = false →
          maxRetryCount ≤ e.retryCount + 1) ∨
       (∃ e, drainExampleState.outbox[k - 1]? = some e ∧ 1 ≤ k ∧
        (fun e => e.type == "createThread") e = false ∧
        e.retryCount + 1 < maxRetryCount ∧
        (drainOutbox (fun e => e.type == "createThread") drainExampleState).outbox =
          { e with retryCount := e.retryCount + 1 } :: drainExampleState.outbox.drop k)) :=
  drainOutbox_fifo_retry_cap (fun e => e.type == "createThread") drainExampleState rfl

-- --- C7: incoming events are idempotent merges ---

/-- `find?` after `updateFirst` with a predicate preserved by the update:
the first match is the image of the original first match. -/
theorem find?_updateFirst (p : α → Bool) (f : α → α) (l : List α) (x : α)
    (hfind : l.find? p = some x) (hpres : ∀ y, p (f y) = p y) :
    (updateFirst p f l).find? p = some (f x) := by
  induction l with
  | nil => simp at hfind
  | cons a as ih =>
    by_cases hpa : p a = true
    · rw [List.find?_cons_of_pos _ hpa] at hfind
      injection hfind with hfind
      subst hfind
      rw [updateFirst, if_pos hpa]
      exact List.find?_cons_of_pos _ (by rw [hpres]; exact hpa)
    · rw [List.find?_cons_of_neg _ hpa] at hfind
      rw [updateFirst, if_neg hpa]
      rw [List.find?_cons_of_neg _ hpa]
      exact ih hfind

/-- A freshly delivered incoming thread is appended (possibly re-anchored,
id preserved) and the new-thread callback fires. -/
theorem handleIncomingThread_fresh (st : BackendState) (thread : CommentThread)
    (hany : st.threads.any (fun t => t.id == thread.id) = false) :
    ∃ t', t'.id = thread.id ∧
      handleIncomingThread st thread =
        ({ st with
             threads := st.threads ++ [t'],
             persisted := if st.activeFile.isSome then st.threads ++ [t'] else st.persisted },
         true) := by
  unfold handleIncomingThread
  rw [if_neg (by rw [hany]; exact Bool.false_ne_true)]
  cases hst : st.activeFile with
  | none => exact ⟨thread, rfl, by simp [hst]⟩
  | some p =>
    refine ⟨{ thread with
                anchor :=
                  match resolveAnchor thread.anchor st.docContent with
                  | some r =>
                    { thread.anchor with startOffset := r.startOffset, endOffset := r.endOffset }
                  | none => thread.anchor },
            rfl, ?_⟩
    simp [hst]

/-- A freshly delivered incoming message is appended to its thread (which
keeps its position and id) and the new-message callback fires. -/
theorem handleIncomingMessage_fresh (st : BackendState) (tid : String)
    (msg : ThreadMessage) (now : String) (t : CommentThread)
    (hfind : st.threads.find? (fun t => t.id == tid) = some t)
    (hdup : t.messages.any (fun m => m.id == msg.id) = false) :
    handleIncomingMessage st tid msg now =
      ({ st with
           threads := updateFirst (fun t => t.id == tid)
             (fun t => { t with messages := t.messages ++ [msg], updatedAt := now }) st.threads,
           persisted := if st.activeFile.isSome then
             updateFirst (fun t => t.id == tid)
               (fun t => { t with messages := t.messages ++ [msg], updatedAt := now }) st.threads
             else st.persisted },
       true) := by
  simp only [handleIncomingMessage, hfind, hdup]
  simp

/-- C7: incoming remote events are idempotent merges — an incoming thread
whose id already exists, or an incoming message whose id already exists
within its thread, leaves the state unchanged and fires no local
callback; consequently delivering the same fresh thread or message twice
stores exactly one copy and fires exactly one callback, the second
delivery being a no-op. -/
theorem incoming_events_idempotent
    (st : BackendState) (thread : CommentThread) (tid : String)
    (msg : ThreadMessage) (now now2 : String) :
    (st.threads.any (fun t => t.id == thread.id) = true →
      handleIncomingThread st thread = (st, false)) ∧
    (∀ t, st.threads.find? (fun t => t.id == tid) = some t →
      t.messages.any (fun m => m.id == msg.id) = true →
      handleIncomingMessage st tid msg now = (st, false)) ∧
    (st.threads.countP (fun t => t.id == thread.id) = 0 →
      (handleIncomingThread st thread).2 = true ∧
      (handleIncomingThread st thread).1.threads.countP (fun t => t.id == thread.id) = 1 ∧
      handleIncomingThread (handleIncomingThread st thread).1 thread =
        ((handleIncomingThread st thread).1, false)) ∧
    (∀ t, st.threads.find? (fun t => t.id == tid) = some t →
      t.messages.countP (fun m => m.id == msg.id) = 0 →
      (handleIncomingMessage st tid msg now).2 = true ∧
      (∃ t', (handleIncomingMessage st tid msg now).1.threads.find?
          (fun t => t.id == tid) = some t' ∧
        t'.messages.countP (fun m => m.id == msg.id) = 1) ∧
      handleIncomingMessage (handleIncomingMessage st tid msg now).1 tid msg now2 =
        ((handleIncomingMessage st tid msg now).1, false)) := by
  refine ⟨?_, ?_, ?_, ?_⟩
  · intro hdup
    unfold handleIncomingThread
    rw [if_pos hdup]
  · intro t hfind hdup
    simp only [handleIncomingMessage, hfind, hdup]
    simp
  · intro hcnt
    have hany : st.threads.any (fun t => t.id == thread.id) = false := by
      rw [List.any_eq_false]
      intro x hx
      have hz := List.countP_eq_zero.mp hcnt x hx
      simpa using hz
    obtain ⟨t', hid', h1⟩ := handleIncomingThread_fresh st thread hany
    have hp' : (fun t => t.id == thread.id) t' = true := by
      simp [hid']
    refine ⟨by rw [h1], ?_, ?_⟩
    · rw [h1]
      simp only [List.countP_append, hcnt, List.countP_cons, hp', List.countP_nil]
      simp
    · rw [h1]
      have hany2 : ((st.threads ++ [t']).any (fun t => t.id == thread.id)) = true := by
        simp [List.any_append, hid']
      unfold handleIncomingThread
      rw [if_pos hany2]
  · intro t hfind hcnt
    have hdup : t.messages.any (fun m => m.id == msg.id) = false := by
      rw [List.any_eq_false]
      intro x hx
      have hz := List.countP_eq_zero.mp hcnt x hx
      simpa using hz
    have h1 := handleIncomingMessage_fresh st tid msg now t hfind hdup
    have hfind' := find?_updateFirst (fun t => t.id == tid)
      (fun t => { t with messages := t.messages ++ [msg], updatedAt := now })
      st.threads t hfind (fun y => rfl)
    refine ⟨by rw [h1], ?_, ?_⟩
    · rw [h1]
      refine ⟨{ t with messages := t.messages ++ [msg], updatedAt := now }, hfind', ?_⟩
      simp only [List.countP_append, hcnt, List.countP_cons, List.countP_nil]
      simp
    · rw [h1]
      have hany2 : (({ t with messages := t.messages ++ [msg], updatedAt := now } :
          CommentThread).messages.any (fun m => m.id == msg.id)) = true := by
        simp [List.any_append]
      simp only [handleIncomingMessage, hfind', hany2]
      simp

/-- A fresh thread (id `"t2"`) used by the C7 witness. -/
def freshExampleThread : CommentThread :=
  { id := "t2", documentId := "d.md",
    anchor := ⟨"zz".toList, 2, 4, none⟩,
    status := ThreadStatus.open,
    messages := [],
    createdAt := "c", updatedAt := "u" }

/-- Witness for C7: delivering an already-known thread id to
`decidedExampleState` is a no-op with no callback, and delivering a fresh
thread twice stores exactly one copy, with the second delivery a no-op. -/
theorem incoming_events_idempotent_witness :
    (handleIncomingThread decidedExampleState decidedExampleThread =
      (decidedExampleState, false)) ∧
    ((handleIncomingThread decidedExampleState freshExampleThread).2 = true ∧
     (handleIncomingThread decidedExampleState freshExampleThread).1.threads.countP
        (fun t => t.id == freshExampleThread.id) = 1 ∧
     handleIncomingThread (handleIncomingThread decidedExampleState freshExampleThread).1
        freshExampleThread =
       ((handleIncomingThread decidedExampleState freshExampleThread).1, false)) :=
  ⟨(incoming_events_idempotent decidedExampleState decidedExampleThread "t1"
      decidedExampleMessage "n" "n2").1 (by decide),
   (incoming_events_idempotent decidedExampleState freshExampleThread "t1"
      decidedExampleMessage "n" "n2").2.2.1 (by decide)⟩

-- --- C4 and C10: closest-match text search ---

/-- Invariant of the `findClosestMatch` scan fold: over a strictly
increasing candidate list whose elements all lie beyond the accumulator,
the fold yields `none` only from nothing, picks an element or keeps the
accumulator, minimizes the distance with leftmost tie-breaking among list
elements, and only improves strictly on the accumulator. -/
theorem stepClosest_foldl_spec (p : Int) (l : List Nat) :
    ∀ acc : Option Nat, l.Pairwise (· < ·) →
      (∀ a, acc = some a → ∀ x ∈ l, a < x) →
      ((l.foldl (stepClosest p) acc = none → acc = none ∧ l = []) ∧
       (∀ b, l.foldl (stepClosest p) acc = some b → acc = some b ∨ b ∈ l) ∧
       (∀ b, l.foldl (stepClosest p) acc = some b → ∀ x ∈ l,
         matchDist p b ≤ matchDist p x ∧ (matchDist p b = matchDist p x → b ≤ x)) ∧
       (∀ b a, l.foldl (stepClosest p) acc = some b → acc = some a →
         matchDist p b ≤ matchDist p a ∧ (b ≠ a → matchDist p b < matchDist p a))) := by
  induction l with
  | nil =>
    intro acc _ _
    refine ⟨fun h => ⟨h, rfl⟩, fun b h => Or.inl h, fun b _ x hx => absurd hx (by simp), ?_⟩
    intro b a hb ha
    rw [ha] at hb
    injection hb with hb
    subst hb
    exact ⟨le_refl _, fun hne => absurd rfl hne⟩
  | cons x xs ih =>
    intro acc hsort hacc
    have hsx : ∀ y ∈ xs, x < y := (List.pairwise_cons.mp hsort).1
    have hsort' : xs.Pairwise (· < ·) := (List.pairwise_cons.mp hsort).2
    have hacc' : ∀ a, stepClosest p acc x = some a → ∀ y ∈ xs, a < y := by
      intro a ha y hy
      cases acc with
      | none =>
        simp only [stepClosest] at ha
        injection ha with ha
        subst ha
        exact hsx y hy
      | some a0 =>
        simp only [stepClosest] at ha
        by_cases hlt : matchDist p x < matchDist p a0
        · rw [if_pos hlt] at ha
          injection ha with ha
          subst ha
          exact hsx y hy
        · rw [if_neg hlt] at ha
          injection ha with ha
          subst ha
          exact hacc _ rfl y (List.mem_cons_of_mem x hy)
    obtain ⟨ih1, ih2, ih3, ih4⟩ := ih (stepClosest p acc x) hsort' hacc'
    have hsome : ∃ a', stepClosest p acc x = some a' := by
      cases acc with
      | none => exact ⟨x, rfl⟩
      | some a0 =>
        simp only [stepClosest]
        by_cases hlt : matchDist p x < matchDist p a0
        · exact ⟨x, if_pos hlt⟩
        · exact ⟨a0, if_neg hlt⟩
    refine ⟨?_, ?_, ?_, ?_⟩
    · intro h
      obtain ⟨a', ha'⟩ := hsome
      obtain ⟨hnone, -⟩ := ih1 h
      rw [ha'] at hnone
      cases hnone
    · intro b h
      rcases ih2 b h with hstep | hmem
      · cases acc with
        | none =>
          simp only [stepClosest] at hstep
          injection hstep with hstep
          subst hstep
          exact Or.inr (List.mem_cons_self x xs)
        | some a0 =>
          simp only [stepClosest] at hstep
          by_cases hlt : matchDist p x < matchDist p a0
          · rw [if_pos hlt] at hstep
            injection hstep with hstep
            subst hstep
            exact Or.inr (List.mem_cons_self x xs)
          · rw [if_neg hlt] at hstep
            exact Or.inl hstep
      · exact Or.inr (List.mem_cons_of_mem x hmem)
    · intro b h y hy
      rcases List.mem_cons.mp hy with hyx | hmem
      · rw [hyx]
        cases acc with
        | none =>
          have h4 := ih4 b x h (by simp only [stepClosest])
          refine ⟨h4.1, fun heq => ?_⟩
          by_cases hbx : b = x
          · exact le_of_eq hbx
          · exact absurd heq (ne_of_lt (h4.2 hbx))
        | some a0 =>
          by_cases hlt : matchDist p x < matchDist p a0
          · have h4 := ih4 b x h (by simp only [stepClosest]; exact if_pos hlt)
            refine ⟨h4.1, fun heq => ?_⟩
            by_cases hbx : b = x
            · exact le_of_eq hbx
            · exact absurd heq (ne_of_lt (h4.2 hbx))
          · have h4 := ih4 b a0 h (by simp only [stepClosest]; exact if_neg hlt)
            have hax : matchDist p a0 ≤ matchDist p x := le_of_not_lt hlt
            refine ⟨h4.1.trans hax, fun heq => ?_⟩
            have hba : b = a0 := by
              by_contra hbne
              have hstrict := h4.2 hbne
              omega
            have ha0x : a0 < x := hacc a0 rfl x (List.mem_cons_self x xs)
            omega
      · exact ih3 b h y hmem
    · intro b a h ha
      subst ha
      by_cases hlt : matchDist p x < matchDist p a
      · have h4 := ih4 b x h (by simp only [stepClosest]; exact if_pos hlt)
        exact ⟨h4.1.trans (le_of_lt hlt), fun _ => lt_of_le_of_lt h4.1 hlt⟩
      · exact ih4 b a h (by simp only [stepClosest]; exact if_neg hlt)

/-- The occurrence-start list is strictly increasing. -/
theorem occurrenceStarts_pairwise (needle haystack : List Char) :
    (occurrenceStarts needle haystack).Pairwise (· < ·) :=
  (List.pairwise_lt_range haystack.length).filter (occursAt needle haystack)

/-- For a non-empty needle, membership in the occurrence-start list is
exactly `occursAt`. -/
theorem mem_occurrenceStarts (needle haystack : List Char) (i : Nat)
    (hne : needle ≠ []) :
    i ∈ occurrenceStarts needle haystack ↔ occursAt needle haystack i = true := by
  constructor
  · intro h
    exact (List.mem_filter.mp h).2
  · intro h
    exact List.mem_filter.mpr
      ⟨List.mem_range.mpr (occursAt_lt_length needle haystack i hne h), h⟩

/-- Full specification of `findClosestMatch` when the needle is non-empty
and occurs: the result is an occurrence whose distance to the preferred
offset is minimal over all occurrences, with the leftmost occurrence
winning ties. -/
theorem findClosestMatch_spec (needle haystack : List Char) (p : Int)
    (hne : needle ≠ []) (i0 : Nat) (hocc : occursAt needle haystack i0 = true) :
    ∃ b, findClosestMatch needle haystack p = some b ∧
      occursAt needle haystack b = true ∧
      (∀ i, occursAt needle haystack i = true →
        matchDist p b ≤ matchDist p i ∧ (matchDist p b = matchDist p i → b ≤ i)) := by
  unfold findClosestMatch
  rw [if_neg (by simpa using hne)]
  obtain ⟨s1, s2, s3, -⟩ := stepClosest_foldl_spec p (occurrenceStarts needle haystack) none
    (occurrenceStarts_pairwise needle haystack) (by intro a ha; cases ha)
  cases hr : (occurrenceStarts needle haystack).foldl (stepClosest p) none with
  | none =>
    exfalso
    obtain ⟨-, hempty⟩ := s1 hr
    have hmem := (mem_occurrenceStarts needle haystack i0 hne).mpr hocc
    rw [hempty] at hmem
    cases hmem
  | some b =>
    refine ⟨b, rfl, ?_, ?_⟩
    · rcases s2 b hr with hc | hmem
      · cases hc
      · exact (mem_occurrenceStarts needle haystack b hne).mp hmem
    · intro i hi
      exact s3 b hr i ((mem_occurrenceStarts needle haystack i hne).mpr hi)

/-- The text-search layer of `resolveAnchor` under the shared hypotheses of
C4 and C10: the exact layer fails but the anchor text occurs, so the
result is the closest occurrence, leftmost on ties. -/
theorem resolveAnchor_textSearch_aux (a : TextAnchor) (doc : List Char)
    (hne : a.anchorText ≠ [])
    (hexact : exactMatches a doc = false)
    (i0 : Nat) (hocc : occursAt a.anchorText doc i0 = true) :
    ∃ b : Nat, resolveAnchor a doc =
        some ⟨(b : Int), (b : Int) + a.anchorText.length, ResolveMethod.textSearch⟩ ∧
      occursAt a.anchorText doc b = true ∧
      (∀ i, occursAt a.anchorText doc i = true →
        matchDist a.startOffset b ≤ matchDist a.startOffset i ∧
        (matchDist a.startOffset b = matchDist a.startOffset i → b ≤ i)) := by
  have hlen : ¬doc.length = 0 := by
    have := occursAt_lt_length a.anchorText doc i0 hne hocc
    omega
  obtain ⟨b, hb, hoccb, hmin⟩ :=
    findClosestMatch_spec a.anchorText doc a.startOffset hne i0 hocc
  refine ⟨b, ?_, hoccb, hmin⟩
  unfold resolveAnchor
  rw [if_neg hlen, if_neg (by rw [hexact]; exact Bool.false_ne_true), hb]

/-- C4: for every document and every anchor with non-empty `anchorText`
for which the exact-offset layer fails but `anchorText` occurs somewhere
in the document, `resolveAnchor` returns a result tagged `text-search`
whose `startOffset` is an occurrence of `anchorText` minimizing the
absolute distance to the anchor's recorded `startOffset` over all
occurrences, and whose `endOffset` is that offset plus the length of
`anchorText`. -/
theorem resolveAnchor_text_search_closest (a : TextAnchor) (doc : List Char)
    (hne : a.anchorText ≠ [])
    (hexact : exactMatches a doc = false)
    (i0 : Nat) (hocc : occursAt a.anchorText doc i0 = true) :
    ∃ r, resolveAnchor a doc = some r ∧ r.method = ResolveMethod.textSearch ∧
      ∃ b : Nat, r.startOffset = (b : Int) ∧
        occursAt a.anchorText doc b = true ∧
        r.endOffset = r.startOffset + a.anchorText.length ∧
        ∀ i, occursAt a.anchorText doc i = true →
          matchDist a.startOffset b ≤ matchDist a.startOffset i := by
  obtain ⟨b, hb, hoccb, hmin⟩ := resolveAnchor_textSearch_aux a doc hne hexact i0 hocc
  exact ⟨_, hb, rfl, b, rfl, hoccb, rfl, fun i hi => (hmin i hi).1⟩

/-- Witness for C4: the anchor text `"ab"` occurs at offsets 0 and 3 of
`"ab ab"`; the recorded offset 1 is stale (the exact layer fails), and
the occurrence at 0 (distance 1) beats the one at 3 (distance 2). -/
theorem resolveAnchor_text_search_closest_witness :
    ∃ r, resolveAnchor ⟨"ab".toList, 1, 3, none⟩ "ab ab".toList = some r ∧
      r.method = ResolveMethod.textSearch ∧
      ∃ b : Nat, r.startOffset = (b : Int) ∧
        occursAt "ab".toList "ab ab".toList b = true ∧
        r.endOffset = r.startOffset + ("ab".toList : List Char).length ∧
        ∀ i, occursAt "ab".toList "ab ab".toList i = true →
          matchDist 1 b ≤ matchDist 1 i :=
  resolveAnchor_text_search_closest ⟨"ab".toList, 1, 3, none⟩ "ab ab".toList
    (by decide) (by decide) 0 (by decide)

/-- C10 (implicit tie-break): under the same hypotheses as C4, when two or
more occurrences are at the same minimal distance from the recorded
`startOffset`, `resolveAnchor` returns the leftmost one — the scan only
replaces its best candidate on strictly smaller distance. -/
theorem resolveAnchor_tie_prefers_leftmost (a : TextAnchor) (doc : List Char)
    (hne : a.anchorText ≠ [])
    (hexact : exactMatches a doc = false)
    (i0 : Nat) (hocc : occursAt a.anchorText doc i0 = true) :
    ∃ b : Nat, resolveAnchor a doc =
        some ⟨(b : Int), (b : Int) + a.anchorText.length, ResolveMethod.textSearch⟩ ∧
      occursAt a.anchorText doc b = true ∧
      ∀ i, occursAt a.anchorText doc i = true →
        matchDist a.startOffset b ≤ matchDist a.startOffset i ∧
        (matchDist a.startOffset i = matchDist a.startOffset b → b ≤ i) := by
  obtain ⟨b, hb, hoccb, hmin⟩ := resolveAnchor_textSearch_aux a doc hne hexact i0 hocc
  exact ⟨b, hb, hoccb, fun i hi => ⟨(hmin i hi).1, fun heq => (hmin i hi).2 heq.symm⟩⟩

/-- Witness for C10: the anchor text `"a"` occurs at offsets 0 and 2 of
`"axa"`, both at distance 1 from the recorded offset 1; the leftmost
occurrence 0 is returned. -/
theorem resolveAnchor_tie_prefers_leftmost_witness :
    ∃ b : Nat, resolveAnchor ⟨"a".toList, 1, 2, none⟩ "axa".toList =
        some ⟨(b : Int), (b : Int) + ("a".toList : List Char).length,
          ResolveMethod.textSearch⟩ ∧
      occursAt "a".toList "axa".toList b = true ∧
      ∀ i, occursAt "a".toList "axa".toList i = true →
        matchDist 1 b ≤ matchDist 1 i ∧ (matchDist 1 i = matchDist 1 b → b ≤ i) :=
  resolveAnchor_tie_prefers_leftmost ⟨"a".toList, 1, 2, none⟩ "axa".toList
    (by decide) (by decide) 0 (by decide)
